import Mathlib

/-!
Shallow embedding of the weather-risk dashboard (`src/app.py`): the forecast
normalizer, the per-slot risk classifier `weather_risk`, the
`value_counts`-based aggregator, and the summary-insight string builder.
Numeric fields are modelled as rationals (`ℚ`); the Python comparisons on
floats are order comparisons on these rationals.
-/

/-- The closed enumeration of risk categories produced by `weather_risk`
(strings `"Very Hot"`, ..., `"Comfortable"` in the source). -/
inductive RiskCategory where
  | VeryHot
  | VeryCold
  | VeryWindy
  | VeryWet
  | VeryUncomfortable
  | Comfortable
deriving DecidableEq, Repr, Fintype

/-- `weather_risk(temp, wind, rain, humidity)` from `src/app.py` lines 69-81:
a chain of `if`/`elif` tests, first match wins; Python's chained comparison
`20 <= temp <= 32` is the conjunction of the two comparisons. -/
def weather_risk (temp wind rain humidity : ℚ) : RiskCategory :=
  if temp ≥ 35 then .VeryHot
  else if temp ≤ 10 then .VeryCold
  else if wind ≥ 10 then .VeryWindy
  else if rain > 2 then .VeryWet
  else if humidity ≥ 80 ∧ 20 ≤ temp ∧ temp ≤ 32 then .VeryUncomfortable
  else .Comfortable

example : weather_risk 36 15 5 90 = .VeryHot := by decide
example : weather_risk 25 12 5 90 = .VeryWindy := by decide
example : weather_risk 25 5 5 90 = .VeryWet := by decide
example : weather_risk (10.1 : ℚ) (9.9 : ℚ) 0 50 = .Comfortable := by
  unfold weather_risk
  norm_num

/-- One raw provider forecast record (one element of `forecast_json["list"]`).
Required fields are `Option`s because a raw JSON record may lack them; in
Python, accessing a missing one (`f["main"]["temp"]` etc.) raises `KeyError`.
`rain3h` is the optional `rain.3h` field read with
`f.get("rain", {}).get("3h", 0)`. -/
structure RawRecord where
  dt_txt : String
  temp : Option ℚ
  humidity : Option ℚ
  wind_speed : Option ℚ
  description : Option String
  rain3h : Option ℚ
deriving DecidableEq, Repr

/-- One row of the dataframe built at `src/app.py` lines 59-66. -/
structure ForecastSlot where
  time : String
  temperature : ℚ
  humidity : ℚ
  wind_speed : ℚ
  weather : String
  rain : ℚ
deriving DecidableEq, Repr

/-- Python's `s.startswith(p)`, modelled on the character sequences of the
two strings. -/
def startswith (s p : String) : Bool :=
  p.data.isPrefixOf s.data

/-- Line 53: `[f for f in forecast_list if f["dt_txt"].startswith(str(date_selected))]`. -/
def selected_forecast (records : List RawRecord) (dateStr : String) : List RawRecord :=
  records.filter (fun f => startswith f.dt_txt dateStr)

/-- Whether a raw record carries every required field (temperature, humidity,
wind speed, description). -/
def hasAllRequired (f : RawRecord) : Bool :=
  f.temp.isSome && f.humidity.isSome && f.wind_speed.isSome && f.description.isSome

/-- Building one dataframe row (lines 60-65). Accessing a missing required
field raises `KeyError` in Python, modelled as `Except.error`; the optional
`rain.3h` field defaults to `0`. -/
def toSlot (f : RawRecord) : Except String ForecastSlot :=
  match f.temp, f.humidity, f.wind_speed, f.description with
  | some t, some h, some w, some d =>
      .ok { time := f.dt_txt, temperature := t, humidity := h, wind_speed := w,
            weather := d, rain := f.rain3h.getD 0 }
  | _, _, _, _ => .error "KeyError"

/-- The dataframe construction (lines 59-66): rows are built in input order;
the first `KeyError` propagates and aborts the whole construction. -/
def df : List RawRecord → Except String (List ForecastSlot)
  | [] => .ok []
  | f :: fs =>
      match toSlot f with
      | .error e => .error e
      | .ok s =>
          match df fs with
          | .error e => .error e
          | .ok rest => .ok (s :: rest)

/-- The total row builder used to state what `df` returns on well-formed
input; it agrees with `toSlot` whenever every required field is present. -/
def toSlotD (f : RawRecord) : ForecastSlot :=
  { time := f.dt_txt, temperature := f.temp.getD 0, humidity := f.humidity.getD 0,
    wind_speed := f.wind_speed.getD 0, weather := f.description.getD "",
    rain := f.rain3h.getD 0 }

/-- Line 83: per-row classification
`weather_risk(row["temperature"], row["wind_speed"], row["rain"], row["humidity"])`. -/
def slotRisk (s : ForecastSlot) : RiskCategory :=
  weather_risk s.temperature s.wind_speed s.rain s.humidity

/-- `pandas.Series.unique()` (line 122): the distinct values in order of
first occurrence. -/
def uniqueFO : List RiskCategory → List RiskCategory
  | [] => []
  | c :: cs => c :: (uniqueFO cs).filter (fun x => x ≠ c)

/-- Stable insertion of a `(category, count)` pair into a list sorted by
descending count: the new pair goes after every existing pair whose count is
at least as large. -/
def insertByCount (p : RiskCategory × ℕ) : List (RiskCategory × ℕ) → List (RiskCategory × ℕ)
  | [] => [p]
  | q :: qs => if q.2 ≥ p.2 then q :: insertByCount p qs else p :: q :: qs

/-- Stable sort by descending count (left-to-right insertion keeps the
relative order of equal counts). -/
def sortByCountDesc (l : List (RiskCategory × ℕ)) : List (RiskCategory × ℕ) :=
  l.foldl (fun acc p => insertByCount p acc) []

/-- `df["Condition"].value_counts().to_dict()` (line 104): pandas tallies the
values keyed in order of first occurrence and returns the pairs sorted by
descending count (a stable sort, so equal counts keep first-occurrence
order); the Python dict preserves that order. -/
def risk_counts (cats : List RiskCategory) : List (RiskCategory × ℕ) :=
  sortByCountDesc ((uniqueFO cats).map (fun c => (c, cats.count c)))

/-- Line 109: `probability = (count / total_slots) * 100`. -/
def probability (count total : ℕ) : ℚ :=
  ((count : ℚ) / (total : ℚ)) * 100

/-- The one-decimal rounding applied by the `f"{probability:.1f}"` display. -/
def round1 (q : ℚ) : ℚ :=
  ((round (10 * q) : ℤ) : ℚ) / 10

example : risk_counts [.Comfortable, .VeryHot, .VeryHot] =
    [(.VeryHot, 2), (.Comfortable, 1)] := by decide
example : uniqueFO [.Comfortable, .VeryHot, .VeryHot] = [.Comfortable, .VeryHot] := by decide

/-- The display string of a category (the literal returned by `weather_risk`
in the source). -/
def categoryName : RiskCategory → String
  | .VeryHot => "Very Hot"
  | .VeryCold => "Very Cold"
  | .VeryWindy => "Very Windy"
  | .VeryWet => "Very Wet"
  | .VeryUncomfortable => "Very Uncomfortable"
  | .Comfortable => "Comfortable"

/-- The advisory clause each category appends to the summary (lines 124-135). -/
def advisoryClause : RiskCategory → String
  | .VeryHot => " 🥵 Stay hydrated and avoid peak afternoon heat."
  | .VeryCold => " 🥶 Wear layers and protect against the cold."
  | .VeryWindy => " 💨 Be cautious with outdoor activities."
  | .VeryWet => " 🌧️ Carry rain gear or reconsider outdoor plans."
  | .VeryUncomfortable => " 😓 High humidity may cause discomfort."
  | .Comfortable => " ✅ Great conditions for outdoor activities!"

/-- Lines 122-135: the summary insight. `unique_conditions` is the
first-occurrence-ordered distinct category list; the base sentence joins the
names with `", "`; then six `if`-statements append one clause per present
category, in the fixed textual order of the source. -/
def summary (place dateStr : String) (cats : List RiskCategory) : String :=
  let u := uniqueFO cats
  let base := "For " ++ place ++ " on " ++ dateStr ++ ", conditions are mostly: "
      ++ String.intercalate ", " (u.map categoryName) ++ "."
  let s1 := if RiskCategory.VeryHot ∈ u then base ++ advisoryClause .VeryHot else base
  let s2 := if RiskCategory.VeryCold ∈ u then s1 ++ advisoryClause .VeryCold else s1
  let s3 := if RiskCategory.VeryWindy ∈ u then s2 ++ advisoryClause .VeryWindy else s2
  let s4 := if RiskCategory.VeryWet ∈ u then s3 ++ advisoryClause .VeryWet else s3
  let s5 := if RiskCategory.VeryUncomfortable ∈ u then s4 ++ advisoryClause .VeryUncomfortable else s4
  if RiskCategory.Comfortable ∈ u then s5 ++ advisoryClause .Comfortable else s5

/-- The fixed order in which the source checks categories when appending
advisory clauses (lines 124-135). -/
def advisoryOrder : List RiskCategory :=
  [.VeryHot, .VeryCold, .VeryWindy, .VeryWet, .VeryUncomfortable, .Comfortable]

/-- The spec's reading of the summary builder: the base sentence, followed by
the clauses of exactly the categories present, appended in the fixed
`advisoryOrder`. -/
def summarySpec (place dateStr : String) (cats : List RiskCategory) : String :=
  (advisoryOrder.filter (fun c => c ∈ cats)).foldl
    (fun acc c => acc ++ advisoryClause c)
    ("For " ++ place ++ " on " ++ dateStr ++ ", conditions are mostly: "
      ++ String.intercalate ", " ((uniqueFO cats).map categoryName) ++ ".")

/-- How a run can fail before producing output: no forecast rows for the
selected date (lines 55-57, warning + `st.stop()`), or a `KeyError` while
building the dataframe (lines 59-66). -/
inductive RunError where
  | emptyRun
  | malformedRecord
deriving DecidableEq, Repr

/-- Everything one run exposes downstream: per-slot categories, the
aggregated counts, the slot total, and the summary string. -/
structure RunOutput where
  conditions : List RiskCategory
  counts : List (RiskCategory × ℕ)
  total_slots : ℕ
  insight : String
deriving DecidableEq, Repr

/-- The processing pipeline of `src/app.py` lines 50-136: filter the raw
records to the selected date; stop with a "no data" warning when the filtered
list is empty; build the dataframe (a missing required field aborts the run);
classify each row; aggregate with `value_counts`; build the summary. -/
def runPipeline (records : List RawRecord) (place dateStr : String) :
    Except RunError RunOutput :=
  let sel := selected_forecast records dateStr
  if sel.isEmpty then .error .emptyRun
  else
    match df sel with
    | .error _ => .error .malformedRecord
    | .ok slots =>
        let cats := slots.map slotRisk
        .ok { conditions := cats, counts := risk_counts cats,
              total_slots := slots.length, insight := summary place dateStr cats }

/-- The classifier's rule table in source order: a Boolean guard over
`(temp, wind, rain, humidity)` paired with the category it assigns. -/
def riskRules : List ((ℚ × ℚ × ℚ × ℚ → Bool) × RiskCategory) :=
  [ (fun x => decide (x.1 ≥ 35), .VeryHot),
    (fun x => decide (x.1 ≤ 10), .VeryCold),
    (fun x => decide (x.2.1 ≥ 10), .VeryWindy),
    (fun x => decide (x.2.2.1 > 2), .VeryWet),
    (fun x => decide (x.2.2.2 ≥ 80 ∧ 20 ≤ x.1 ∧ x.1 ≤ 32), .VeryUncomfortable) ]

/-- First-match-wins evaluation of an ordered rule table, defaulting to
`Comfortable` when no rule fires. -/
def firstMatch (x : ℚ × ℚ × ℚ × ℚ) :
    List ((ℚ × ℚ × ℚ × ℚ → Bool) × RiskCategory) → RiskCategory
  | [] => .Comfortable
  | (p, c) :: rest => if p x then c else firstMatch x rest

/-- #### C1 (amended)
The classifier is the first-match-wins evaluation of the fixed-priority rule
table (temperature ≥ 35 → VeryHot, then temperature ≤ 10 → VeryCold, then
wind ≥ 10 → VeryWindy, then precipitation > 2 → VeryWet, then
humidity ≥ 80 ∧ 20 ≤ temperature ≤ 32 → VeryUncomfortable, else
Comfortable); a slot with temperature 36, wind 15, precipitation 5,
humidity 90 classifies VeryHot; and a slot satisfying both the wet and the
uncomfortable conditions **whose wind speed is below 10** classifies VeryWet
(without the wind bound the windy rule, which precedes the wet rule, can win
instead). -/
theorem weather_risk_priority_order :
    (∀ t w r h : ℚ, weather_risk t w r h = firstMatch (t, w, r, h) riskRules) ∧
    weather_risk 36 15 5 90 = .VeryHot ∧
    (∀ t w r h : ℚ, r > 2 → h ≥ 80 → 20 ≤ t → t ≤ 32 → w < 10 →
      weather_risk t w r h = .VeryWet) := by
  refine ⟨fun t w r h => ?_, by decide, fun t w r h hr hh ht1 ht2 hw => ?_⟩
  · simp only [weather_risk, riskRules, firstMatch, decide_eq_true_eq]
  · unfold weather_risk
    rw [if_neg (by push_neg; linarith), if_neg (by push_neg; linarith),
      if_neg (by push_neg; linarith), if_pos hr]

/-- Witness for C1's amended wet/uncomfortable conjunct at a concrete slot. -/
theorem weather_risk_priority_order_witness :
    weather_risk 25 5 5 90 = .VeryWet :=
  weather_risk_priority_order.2.2 25 5 5 90 (by norm_num) (by norm_num)
    (by norm_num) (by norm_num) (by norm_num)

/-- #### C1 counterexample
A slot satisfying both the wet condition (precipitation 5 > 2) and the
uncomfortable condition (humidity 90 ≥ 80 and 20 ≤ temperature 25 ≤ 32) but
with wind 12 ≥ 10 is classified VeryWindy, not VeryWet as the claim states. -/
theorem weather_risk_wet_uncomfortable_counterexample :
    weather_risk 25 12 5 90 = .VeryWindy ∧ (5 : ℚ) > 2 ∧ (90 : ℚ) ≥ 80 ∧
      (20 : ℚ) ≤ 25 ∧ (25 : ℚ) ≤ 32 ∧ RiskCategory.VeryWindy ≠ .VeryWet := by
  refine ⟨by decide, by norm_num, by norm_num, by norm_num, by norm_num, by decide⟩

/-- #### C5
Threshold boundaries: temperature exactly 35 gives VeryHot whatever the other
fields; temperature exactly 10 gives VeryCold whatever the other fields;
temperature 10.1 with wind 9.9, precipitation 0, humidity 50 gives
Comfortable; temperature 25 with humidity 79 and no other rule firing gives
Comfortable, while humidity 80 at temperature 25 gives VeryUncomfortable. -/
theorem weather_risk_boundaries :
    (∀ w r h : ℚ, weather_risk 35 w r h = .VeryHot) ∧
    (∀ w r h : ℚ, weather_risk 10 w r h = .VeryCold) ∧
    weather_risk (10.1 : ℚ) (9.9 : ℚ) 0 50 = .Comfortable ∧
    weather_risk 25 0 0 79 = .Comfortable ∧
    weather_risk 25 0 0 80 = .VeryUncomfortable := by
  refine ⟨fun w r h => ?_, fun w r h => ?_, ?_, by decide, by decide⟩
  · unfold weather_risk
    rw [if_pos le_rfl]
  · unfold weather_risk
    rw [if_neg (by norm_num), if_pos le_rfl]
  · unfold weather_risk
    norm_num

/-- #### C6
The classifier is a total function: for every input it returns exactly one of
the six RiskCategory values (no error path). -/
theorem weather_risk_total :
    ∀ t w r h : ℚ,
      weather_risk t w r h = .VeryHot ∨ weather_risk t w r h = .VeryCold ∨
      weather_risk t w r h = .VeryWindy ∨ weather_risk t w r h = .VeryWet ∨
      weather_risk t w r h = .VeryUncomfortable ∨
      weather_risk t w r h = .Comfortable := by
  intro t w r h
  unfold weather_risk
  split_ifs <;> simp

/-- #### C10
A slot with temperature strictly between 10 and 20, wind below 10, and
precipitation at most 2 is classified Comfortable for every humidity value:
the VeryUncomfortable rule's lower temperature bound of 20 rules out cool,
fully humid slots. -/
theorem weather_risk_cool_humid_comfortable :
    ∀ t w r h : ℚ, 10 < t → t < 20 → w < 10 → r ≤ 2 →
      weather_risk t w r h = .Comfortable := by
  intro t w r h ht1 ht2 hw hr
  unfold weather_risk
  rw [if_neg (by push_neg; linarith), if_neg (by push_neg; linarith),
    if_neg (by push_neg; linarith), if_neg (by push_neg; linarith),
    if_neg (by rintro ⟨-, h20, -⟩; linarith)]

/-- Witness for C10 at a concrete cool, fully humid slot. -/
theorem weather_risk_cool_humid_comfortable_witness :
    weather_risk 15 5 0 100 = .Comfortable :=
  weather_risk_cool_humid_comfortable 15 5 0 100 (by norm_num) (by norm_num)
    (by norm_num) (by norm_num)

/-- A well-formed raw record (every required field present, no rain field). -/
def sampleGood : RawRecord :=
  { dt_txt := "2026-10-12 09:00:00", temp := some 25, humidity := some 60,
    wind_speed := some 3, description := some "clear sky", rain3h := none }

/-- A raw record missing the required `main.temp` field. -/
def sampleBad : RawRecord :=
  { dt_txt := "2026-10-12 12:00:00", temp := none, humidity := some 70,
    wind_speed := some 4, description := some "rain", rain3h := some 1 }

theorem toSlot_error_of_missing (f : RawRecord) (hbad : hasAllRequired f = false) :
    ∃ e, toSlot f = Except.error e := by
  unfold hasAllRequired at hbad
  unfold toSlot
  rcases htemp : f.temp with _ | t <;> rcases hhum : f.humidity with _ | h <;>
    rcases hwind : f.wind_speed with _ | w <;> rcases hdesc : f.description with _ | d <;>
    simp [htemp, hhum, hwind, hdesc] at hbad ⊢

theorem toSlot_ok_of_wellFormed (f : RawRecord) (hok : hasAllRequired f = true) :
    toSlot f = Except.ok (toSlotD f) := by
  unfold hasAllRequired at hok
  unfold toSlot toSlotD
  rcases htemp : f.temp with _ | t <;> rcases hhum : f.humidity with _ | h <;>
    rcases hwind : f.wind_speed with _ | w <;> rcases hdesc : f.description with _ | d <;>
    simp [htemp, hhum, hwind, hdesc] at hok ⊢

theorem df_ok_of_wellFormed (l : List RawRecord)
    (h : ∀ f ∈ l, hasAllRequired f = true) :
    df l = Except.ok (l.map toSlotD) := by
  induction l with
  | nil => rfl
  | cons g gs ih =>
      have hg := toSlot_ok_of_wellFormed g (h g (List.mem_cons_self g gs))
      have hrest := ih (fun f hf => h f (List.mem_cons_of_mem g hf))
      simp only [df, hg, hrest, List.map_cons]

/-- #### C2 (amended)
A raw record missing a required field makes the whole dataframe construction
signal an error: the batch is aborted, no slot list is produced for the
remaining records, and no excluded-record count is reported (the source has
no per-record exclusion or counting). -/
theorem df_aborts_on_missing_field :
    ∀ (records : List RawRecord) (f : RawRecord), f ∈ records →
      hasAllRequired f = false → ∃ e, df records = Except.error e := by
  intro records
  induction records with
  | nil => intro f hf; simp at hf
  | cons g gs ih =>
      intro f hf hbad
      rcases List.mem_cons.mp hf with rfl | hmem
      · obtain ⟨e, he⟩ := toSlot_error_of_missing f hbad
        exact ⟨e, by simp only [df, he]⟩
      · cases hg : toSlot g with
        | error e2 => exact ⟨e2, by simp only [df, hg]⟩
        | ok s =>
            obtain ⟨e, he⟩ := ih f hmem hbad
            exact ⟨e, by simp only [df, hg, he]⟩

/-- Witness for C2's amended claim: a concrete batch with one record missing
`main.temp` makes `df` error out. -/
theorem df_aborts_on_missing_field_witness :
    ∃ e, df [sampleGood, sampleBad] = Except.error e :=
  df_aborts_on_missing_field [sampleGood, sampleBad] sampleBad (by simp) rfl

/-- #### C2 counterexample
On the batch `[sampleGood, sampleBad]`, where only `sampleBad` is missing a
required field, the code does not exclude the malformed record and continue:
the whole construction returns a `KeyError`, even though `sampleGood` on its
own normalizes fine. -/
theorem df_missing_field_counterexample :
    df [sampleGood, sampleBad] = Except.error "KeyError" ∧
      hasAllRequired sampleBad = false ∧
      df [sampleGood] = Except.ok [toSlotD sampleGood] :=
  ⟨rfl, rfl, rfl⟩

/-- #### C7
When normalization yields zero slots for the requested date, the run signals
the empty-run condition and stops: classification and aggregation never run
and no RiskAssessment is returned. -/
theorem runPipeline_emptyRun :
    ∀ (records : List RawRecord) (place dateStr : String),
      selected_forecast records dateStr = [] →
      runPipeline records place dateStr = Except.error RunError.emptyRun := by
  intro records place dateStr h
  simp only [runPipeline, h, List.isEmpty_nil, if_true]

/-- Witness for C7 on a concrete input with no slot for the target date. -/
theorem runPipeline_emptyRun_witness :
    runPipeline [sampleGood] "Mumbai" "2026-10-13" = Except.error RunError.emptyRun :=
  runPipeline_emptyRun [sampleGood] "Mumbai" "2026-10-13" (by decide)

/-- #### C8
On raw records that carry every required field, the normalizer keeps exactly
the records whose timestamp string starts with the target date (the code's
encoding of "date component equals the target date"), in input order, builds
one slot per kept record, defaults a missing `rain.3h` field to `0`, and an
empty selection normalizes to the empty slot list without error. -/
theorem normalizer_filters_and_defaults :
    ∀ (records : List RawRecord) (dateStr : String),
      (∀ f ∈ records, hasAllRequired f = true) →
      selected_forecast records dateStr =
        records.filter (fun f => startswith f.dt_txt dateStr) ∧
      df (selected_forecast records dateStr) =
        Except.ok ((records.filter (fun f => startswith f.dt_txt dateStr)).map toSlotD) ∧
      (∀ f, f ∈ selected_forecast records dateStr ↔
        f ∈ records ∧ startswith f.dt_txt dateStr = true) ∧
      (∀ f : RawRecord, f.rain3h = none → (toSlotD f).rain = 0) := by
  intro records dateStr h
  refine ⟨rfl, ?_, ?_, ?_⟩
  · exact df_ok_of_wellFormed _ (fun f hf => h f (List.mem_of_mem_filter hf))
  · intro f
    simp [selected_forecast, List.mem_filter]
  · intro f hf
    simp [toSlotD, hf]

/-- Witness for C8: a two-record batch where only the first record matches
the target date; the normalizer keeps exactly that record, in order, with
rain defaulted to `0`. -/
theorem normalizer_filters_and_defaults_witness :
    df (selected_forecast [sampleGood,
      { dt_txt := "2026-10-13 09:00:00", temp := some 30, humidity := some 40,
        wind_speed := some 2, description := some "haze", rain3h := none }] "2026-10-12") =
      Except.ok [toSlotD sampleGood] :=
  (normalizer_filters_and_defaults _ "2026-10-12" (by decide)).2.1

theorem mem_uniqueFO (c : RiskCategory) (l : List RiskCategory) :
    c ∈ uniqueFO l ↔ c ∈ l := by
  induction l with
  | nil => simp [uniqueFO]
  | cons a as ih =>
      by_cases hca : c = a <;> simp [uniqueFO, List.mem_filter, ih, hca]

theorem uniqueFO_nodup (l : List RiskCategory) : (uniqueFO l).Nodup := by
  induction l with
  | nil => simp [uniqueFO]
  | cons a as ih =>
      refine List.nodup_cons.mpr ⟨?_, ih.filter _⟩
      intro hmem
      simp [List.mem_filter] at hmem

theorem uniqueFO_toFinset (l : List RiskCategory) :
    (uniqueFO l).toFinset = l.toFinset :=
  Finset.ext fun c => by simp [List.mem_toFinset, mem_uniqueFO]

theorem insertByCount_perm (p : RiskCategory × ℕ) (l : List (RiskCategory × ℕ)) :
    (insertByCount p l).Perm (p :: l) := by
  induction l with
  | nil => exact List.Perm.refl _
  | cons q qs ih =>
      unfold insertByCount
      split
      · exact (ih.cons q).trans (List.Perm.swap p q qs)
      · exact List.Perm.refl _

theorem foldl_insertByCount_perm (l : List (RiskCategory × ℕ)) :
    ∀ acc, (l.foldl (fun acc p => insertByCount p acc) acc).Perm (l ++ acc) := by
  induction l with
  | nil => intro acc; simp
  | cons p ps ih =>
      intro acc
      simp only [List.foldl_cons, List.cons_append]
      exact ((ih _).trans ((insertByCount_perm p acc).append_left ps)).trans
        List.perm_middle

theorem risk_counts_perm (cats : List RiskCategory) :
    (risk_counts cats).Perm ((uniqueFO cats).map (fun c => (c, cats.count c))) := by
  simpa [risk_counts, sortByCountDesc] using
    foldl_insertByCount_perm ((uniqueFO cats).map (fun c => (c, cats.count c))) []

theorem insertByCount_pairwise (p : RiskCategory × ℕ)
    (l : List (RiskCategory × ℕ))
    (h : l.Pairwise (fun a b => b.2 ≤ a.2)) :
    (insertByCount p l).Pairwise (fun a b => b.2 ≤ a.2) := by
  induction l with
  | nil => simp [insertByCount]
  | cons q qs ih =>
      rcases List.pairwise_cons.mp h with ⟨hq, hqs⟩
      unfold insertByCount
      split
      · refine List.pairwise_cons.mpr ⟨?_, ih hqs⟩
        intro x hx
        rcases List.mem_cons.mp ((insertByCount_perm p qs).mem_iff.mp hx) with rfl | hxqs
        · assumption
        · exact hq x hxqs
      · rename_i hlt
        refine List.pairwise_cons.mpr ⟨?_, h⟩
        intro x hx
        rcases List.mem_cons.mp hx with rfl | hxqs
        · exact le_of_lt (lt_of_not_ge hlt)
        · exact (hq x hxqs).trans (le_of_lt (lt_of_not_ge hlt))

theorem foldl_insertByCount_pairwise (l : List (RiskCategory × ℕ)) :
    ∀ acc, acc.Pairwise (fun a b => b.2 ≤ a.2) →
      (l.foldl (fun acc p => insertByCount p acc) acc).Pairwise (fun a b => b.2 ≤ a.2) := by
  induction l with
  | nil => intro acc hacc; simpa using hacc
  | cons p ps ih =>
      intro acc hacc
      exact ih _ (insertByCount_pairwise p acc hacc)

theorem mem_risk_counts (cats : List RiskCategory) (c : RiskCategory) (n : ℕ) :
    (c, n) ∈ risk_counts cats ↔ c ∈ cats ∧ n = cats.count c := by
  rw [(risk_counts_perm cats).mem_iff, List.mem_map]
  constructor
  · rintro ⟨c', hc', heq⟩
    obtain ⟨rfl, rfl⟩ := Prod.mk.injEq .. ▸ heq
    exact ⟨(mem_uniqueFO c' cats).mp hc', rfl⟩
  · rintro ⟨hc, rfl⟩
    exact ⟨c, (mem_uniqueFO c cats).mpr hc, rfl⟩

/-- #### C3 (amended)
For every non-empty run, the aggregator's output contains exactly the
categories occurring at least once, each with its occurrence count
(zero-count categories are omitted); its output order is **descending count
(frequency-ranked) order** — the stable sort of `value_counts` keeps ties in
first-occurrence order, but the overall order is not the insertion order of
first occurrence. -/
theorem risk_counts_membership_and_order (cats : List RiskCategory)
    (_hne : cats ≠ []) :
    (∀ c n, ((c, n) ∈ risk_counts cats ↔ c ∈ cats ∧ n = cats.count c)) ∧
      (risk_counts cats).Pairwise (fun a b => b.2 ≤ a.2) := by
  refine ⟨mem_risk_counts cats, ?_⟩
  exact foldl_insertByCount_pairwise _ [] (by simp)

/-- Witness for C3 on a concrete one-slot run. -/
theorem risk_counts_membership_and_order_witness :
    (RiskCategory.VeryHot, 1) ∈ risk_counts [RiskCategory.VeryHot] :=
  ((risk_counts_membership_and_order [RiskCategory.VeryHot] (by decide)).1
    RiskCategory.VeryHot 1).mpr (by decide)

/-- #### C3 counterexample
On the category sequence `[Comfortable, VeryHot, VeryHot]` the aggregator
lists `VeryHot` (count 2) before `Comfortable` (count 1), while the
first-occurrence insertion order of the distinct categories is
`[Comfortable, VeryHot]`: the output order is frequency-ranked, not the
insertion order of first occurrence the claim states. -/
theorem risk_counts_order_counterexample :
    risk_counts [.Comfortable, .VeryHot, .VeryHot] =
      [(.VeryHot, 2), (.Comfortable, 1)] ∧
    uniqueFO [.Comfortable, .VeryHot, .VeryHot] = [.Comfortable, .VeryHot] ∧
    ([(RiskCategory.VeryHot, 2), (RiskCategory.Comfortable, 1)] ≠
      [(RiskCategory.Comfortable, 1), (RiskCategory.VeryHot, 2)]) := by
  exact ⟨by decide, by decide, by decide⟩

theorem round1_close (q : ℚ) : |round1 q - q| ≤ 1 / 20 := by
  unfold round1
  have h : ((round (10 * q) : ℤ) : ℚ) / 10 - q = (((round (10 * q) : ℤ) : ℚ) - 10 * q) / 10 := by
    ring
  rw [h, abs_div, abs_of_pos (by norm_num : (0 : ℚ) < 10)]
  have h2 : |((round (10 * q) : ℤ) : ℚ) - 10 * q| ≤ 1 / 2 := by
    rw [abs_sub_comm]
    exact abs_sub_round (10 * q)
  linarith

theorem list_sum_sub (l : List (RiskCategory × ℕ)) (f g : RiskCategory × ℕ → ℚ) :
    (l.map f).sum - (l.map g).sum = (l.map (fun x => f x - g x)).sum := by
  induction l with
  | nil => simp
  | cons a as ih =>
      simp only [List.map_cons, List.sum_cons]
      rw [← ih]
      ring

theorem list_abs_sum_le (l : List ℚ) : |l.sum| ≤ (l.map (fun x => |x|)).sum := by
  induction l with
  | nil => simp
  | cons a as ih =>
      simp only [List.sum_cons, List.map_cons]
      exact (abs_add _ _).trans (by linarith)

theorem uniqueFO_sum_count (cats : List RiskCategory) :
    ((uniqueFO cats).map (fun c => cats.count c)).sum = cats.length := by
  rw [← List.sum_toFinset _ (uniqueFO_nodup cats), uniqueFO_toFinset,
    List.sum_toFinset_count_eq_length]

theorem risk_counts_sum_counts (cats : List RiskCategory) :
    ((risk_counts cats).map (fun p => p.2)).sum = cats.length := by
  rw [((risk_counts_perm cats).map (fun p => p.2)).sum_eq, List.map_map]
  exact uniqueFO_sum_count cats

theorem risk_counts_prob_sum (cats : List RiskCategory) (hne : cats ≠ []) :
    ((risk_counts cats).map (fun p => probability p.2 cats.length)).sum = 100 := by
  have hT : (cats.length : ℚ) ≠ 0 :=
    Nat.cast_ne_zero.mpr (List.length_pos.mpr hne).ne'
  rw [((risk_counts_perm cats).map (fun p => probability p.2 cats.length)).sum_eq,
    List.map_map]
  have hfin : ((uniqueFO cats).map
      (fun c => probability (cats.count c) cats.length)).sum
      = ∑ c in cats.toFinset, probability (cats.count c) cats.length := by
    rw [← List.sum_toFinset _ (uniqueFO_nodup cats), uniqueFO_toFinset]
  rw [show ((fun p => probability p.2 cats.length) ∘ fun c => (c, cats.count c))
      = fun c => probability (cats.count c) cats.length from rfl, hfin]
  unfold probability
  rw [← Finset.sum_mul, ← Finset.sum_div, ← Nat.cast_sum,
    List.sum_toFinset_count_eq_length, div_self hT, one_mul]

/-- #### C4 (amended)
For every non-empty run: the per-category counts sum to the total number of
slots; each category's probability is `100 × count / total_slots`; and the
sum of the one-decimal-rounded probabilities across the returned categories
is within ±0.3 of 100 (each of the at most six categories contributes at
most 0.05 of rounding error, and six equally likely categories do exceed the
claimed ±0.1 bound). -/
theorem risk_counts_sums_and_rounding (cats : List RiskCategory)
    (hne : cats ≠ []) :
    ((risk_counts cats).map (fun p => p.2)).sum = cats.length ∧
    (∀ p ∈ risk_counts cats,
      probability p.2 cats.length = 100 * (p.2 : ℚ) / (cats.length : ℚ)) ∧
    |((risk_counts cats).map
        (fun p => round1 (probability p.2 cats.length))).sum - 100| ≤ 3 / 10 := by
  refine ⟨risk_counts_sum_counts cats, fun p _ => by unfold probability; ring, ?_⟩
  have hlen : ((risk_counts cats).length : ℚ) ≤ 6 := by
    have h1 : (risk_counts cats).length = (uniqueFO cats).length := by
      rw [(risk_counts_perm cats).length_eq, List.length_map]
    have h2 : (uniqueFO cats).length ≤ Fintype.card RiskCategory :=
      (uniqueFO_nodup cats).length_le_card
    have h3 : Fintype.card RiskCategory = 6 := rfl
    have : (risk_counts cats).length ≤ 6 := by omega
    exact_mod_cast this
  have hsub : ((risk_counts cats).map
      (fun p => round1 (probability p.2 cats.length))).sum - 100
      = ((risk_counts cats).map (fun p => round1 (probability p.2 cats.length)
          - probability p.2 cats.length)).sum := by
    conv_lhs => rw [← risk_counts_prob_sum cats hne]
    exact list_sum_sub (risk_counts cats) _ _
  rw [hsub]
  refine (list_abs_sum_le _).trans ?_
  rw [List.map_map]
  have hbound : ∀ x ∈ (risk_counts cats).map ((fun x => |x|) ∘
      fun p => round1 (probability p.2 cats.length) - probability p.2 cats.length),
      x ≤ (1 : ℚ) / 20 := by
    intro x hx
    obtain ⟨p, _, rfl⟩ := List.mem_map.mp hx
    exact round1_close _
  have hle := List.sum_le_card_nsmul _ ((1 : ℚ) / 20) hbound
  rw [List.length_map, nsmul_eq_mul] at hle
  calc ((risk_counts cats).map ((fun x => |x|) ∘
        fun p => round1 (probability p.2 cats.length)
          - probability p.2 cats.length)).sum
      ≤ ((risk_counts cats).length : ℚ) * (1 / 20) := hle
    _ ≤ 6 * (1 / 20) := by
        have h20 : (0 : ℚ) ≤ 1 / 20 := by norm_num
        exact mul_le_mul_of_nonneg_right hlen h20
    _ = 3 / 10 := by norm_num

/-- Witness for C4 on a concrete one-slot run. -/
theorem risk_counts_sums_and_rounding_witness :
    ((risk_counts [RiskCategory.VeryHot]).map (fun p => p.2)).sum = 1 :=
  (risk_counts_sums_and_rounding [RiskCategory.VeryHot] (by decide)).1

/-- Six concrete forecast slots, one per risk category. -/
def sixSlots : List ForecastSlot :=
  [ { time := "2026-10-12 00:00:00", temperature := 36, humidity := 50,
      wind_speed := 0, weather := "clear sky", rain := 0 },
    { time := "2026-10-12 03:00:00", temperature := 5, humidity := 50,
      wind_speed := 0, weather := "clear sky", rain := 0 },
    { time := "2026-10-12 06:00:00", temperature := 20, humidity := 50,
      wind_speed := 12, weather := "clear sky", rain := 0 },
    { time := "2026-10-12 09:00:00", temperature := 20, humidity := 50,
      wind_speed := 5, weather := "rain", rain := 5 },
    { time := "2026-10-12 12:00:00", temperature := 25, humidity := 90,
      wind_speed := 5, weather := "mist", rain := 0 },
    { time := "2026-10-12 15:00:00", temperature := 15, humidity := 50,
      wind_speed := 5, weather := "clear sky", rain := 0 } ]

/-- The category sequence of `sixSlots`: each category occurs exactly once. -/
def sixCats : List RiskCategory :=
  [.VeryHot, .VeryCold, .VeryWindy, .VeryWet, .VeryUncomfortable, .Comfortable]

/-- #### C4 counterexample
A realizable run of six slots, one per category: each probability is
100/6 ≈ 16.666…%, which rounds to 16.7%, so the rounded probabilities sum to
100.2 — not within ±0.1 of 100.0 as the claim states. -/
theorem rounded_probability_sum_counterexample :
    sixSlots.map slotRisk = sixCats ∧
    ((risk_counts sixCats).map
      (fun p => round1 (probability p.2 sixCats.length))).sum = 501 / 5 ∧
    ¬ (|(501 : ℚ) / 5 - 100| ≤ 1 / 10) := by
  refine ⟨by decide, ?_, ?_⟩
  · have h : risk_counts sixCats =
        [(.VeryHot, 1), (.VeryCold, 1), (.VeryWindy, 1), (.VeryWet, 1),
          (.VeryUncomfortable, 1), (.Comfortable, 1)] := by decide
    rw [h]
    norm_num [probability, round1, round_eq, sixCats]
  · have h : (501 : ℚ) / 5 - 100 = 1 / 5 := by norm_num
    rw [h, abs_of_pos (by norm_num : (0 : ℚ) < 1 / 5)]
    norm_num

/-- #### C9
For every run, the summary is the base sentence
`"For {place} on {date}, conditions are mostly: {comma-joined distinct
categories in first-occurrence order}."` followed by exactly one fixed
advisory clause per distinct category present, appended in the fixed order
VeryHot, VeryCold, VeryWindy, VeryWet, VeryUncomfortable, Comfortable
regardless of encounter order, with absent categories contributing no
clause. -/
theorem summary_fixed_clause_order :
    ∀ (place dateStr : String) (cats : List RiskCategory),
      summary place dateStr cats = summarySpec place dateStr cats := by
  intro place dateStr cats
  unfold summary summarySpec advisoryOrder
  simp only [mem_uniqueFO]
  by_cases h1 : RiskCategory.VeryHot ∈ cats <;>
    by_cases h2 : RiskCategory.VeryCold ∈ cats <;>
      by_cases h3 : RiskCategory.VeryWindy ∈ cats <;>
        by_cases h4 : RiskCategory.VeryWet ∈ cats <;>
          by_cases h5 : RiskCategory.VeryUncomfortable ∈ cats <;>
            by_cases h6 : RiskCategory.Comfortable ∈ cats <;>
              simp [h1, h2, h3, h4, h5, h6]
